import Mathlib

/-!
Verification development for the Prisma-to-Drizzle query transformer
(`PrismaToDrizzleTransformer` in
`packages/prisma-to-drizzle-query-transformer/src/lib/prisma-to-drizzle-query-transformer.ts`).

The TypeScript source works on dynamically typed JavaScript records.  We embed
JavaScript values as the inductive type `JsVal`, drizzle's opaque SQL predicate
objects as the inductive type `SQLExpr`, and thrown exceptions as `Except Err`.
Every function below is translated from the source file; comments cite the
corresponding source lines.
-/

/-- A JavaScript value as the transformer observes it: `null`, `undefined`,
primitive strings/numbers/booleans, `Date` objects, arrays, and plain objects
(ordered lists of string-keyed entries, mirroring `Object.entries` order). -/
inductive JsVal : Type where
  | null : JsVal
  | undefined : JsVal
  | str (s : String) : JsVal
  | int (n : Int) : JsVal
  | bool (b : Bool) : JsVal
  | date (t : Int) : JsVal
  | arr (elems : List JsVal) : JsVal
  | obj (entries : List (String × JsVal)) : JsVal

/-- A drizzle column handle, identified by its name in the table model. -/
structure Column : Type where
  name : String
deriving DecidableEq

/-- The table model: the `PgTable` instance indexed by field name
(`this.model[key]`). -/
def Model : Type := List (String × Column)

/-- First-match lookup in a string-keyed entry list (JS property access). -/
def lookupEntry {α : Type} : List (String × α) → String → Option α
  | [], _ => none
  | (k, v) :: rest, key => if k = key then some v else lookupEntry rest key

/-- `this.model[key] as Column` — may be `none` when the field is absent. -/
def lookupCol (model : Model) (key : String) : Option Column :=
  lookupEntry model key

/-- JavaScript truthiness of a value (`if (args.where)` etc.). -/
def jsTruthy : JsVal → Bool
  | .null => false
  | .undefined => false
  | .str s => s ≠ ""
  | .int n => n ≠ 0
  | .bool b => b
  | .date _ => true
  | .arr _ => true
  | .obj _ => true

/-- `typeof v === 'object'` — true for `null`, arrays, `Date`s and plain
objects alike. -/
def typeofObject : JsVal → Bool
  | .null => true
  | .arr _ => true
  | .obj _ => true
  | .date _ => true
  | _ => false

/-- `v === 'asc'` (strict string comparison, source lines 83, 247, 256). -/
def ascVal : JsVal → Bool
  | .str s => s = "asc"
  | _ => false

/-- `mode === 'insensitive'` (source lines 437, 444). -/
def insensitiveVal : JsVal → Bool
  | .str s => s = "insensitive"
  | _ => false

/-- `typeof v === 'undefined'` (source lines 264, 272-273). -/
def isUndefinedVal : JsVal → Bool
  | .undefined => true
  | _ => false

/-- `Array.isArray(v)`. -/
def isArrVal : JsVal → Bool
  | .arr _ => true
  | _ => false

/-- JavaScript nullish coalescing `x ?? d`. -/
def nullish (v d : JsVal) : JsVal :=
  match v with
  | .null => d
  | .undefined => d
  | v => v

/-- Property access `v[k]` on a non-nullish value: object key lookup, numeric
index into arrays and strings, `undefined` otherwise. -/
def getField : JsVal → String → JsVal
  | .obj l, k => (lookupEntry l k).getD .undefined
  | .arr xs, k =>
    match k.toNat? with
    | some i =>
      match xs.get? i with
      | some w => w
      | none => .undefined
    | none => .undefined
  | .str s, k =>
    match k.toNat? with
    | some i =>
      match s.data.get? i with
      | some c => .str (String.mk [c])
      | none => .undefined
    | none => .undefined
  | _, _ => .undefined

/-- Optional chaining `v?.[k]`: `undefined` when `v` is nullish. -/
def optChainGet (v : JsVal) (k : String) : JsVal :=
  match v with
  | .null => .undefined
  | .undefined => .undefined
  | v => getField v k

/-- `Object.entries` of an array: index-keyed entries. -/
def enumEntriesFrom : Nat → List JsVal → List (String × JsVal)
  | _, [] => []
  | i, x :: rest => (toString i, x) :: enumEntriesFrom (i + 1) rest

def enumEntries (xs : List JsVal) : List (String × JsVal) :=
  enumEntriesFrom 0 xs

/-- `Object.entries` of a primitive string: index-keyed single characters. -/
def charEntries (s : String) : List (String × JsVal) :=
  s.data.enum.map (fun p => (toString p.1, JsVal.str (String.mk [p.2])))

mutual

/-- Size of a `JsVal`, used as the termination measure of the parser. -/
def jsize : JsVal → Nat
  | .null => 1
  | .undefined => 1
  | .str _ => 1
  | .int _ => 1
  | .bool _ => 1
  | .date _ => 1
  | .arr xs => 1 + jsizeList xs
  | .obj e => 1 + jsizeEntries e

def jsizeList : List JsVal → Nat
  | [] => 0
  | x :: rest => jsize x + jsizeList rest

def jsizeEntries : List (String × JsVal) → Nat
  | [] => 0
  | (_, v) :: rest => jsize v + jsizeEntries rest

end

theorem jsize_pos (v : JsVal) : 1 ≤ jsize v := by
  cases v <;> simp [jsize]

theorem lookupEntry_jsize {l : List (String × JsVal)} {k : String} {v : JsVal}
    (h : lookupEntry l k = some v) : jsize v ≤ jsizeEntries l := by
  induction l with
  | nil => simp [lookupEntry] at h
  | cons hd tl ih =>
    obtain ⟨hk, hv⟩ := hd
    simp only [lookupEntry] at h
    by_cases hc : hk = k
    · rw [if_pos hc] at h
      obtain rfl : hv = v := Option.some.inj h
      simp [jsizeEntries]
    · rw [if_neg hc] at h
      have := ih h
      simp only [jsizeEntries]
      omega

theorem mem_jsizeList {xs : List JsVal} {x : JsVal} (h : x ∈ xs) :
    jsize x ≤ jsizeList xs := by
  induction xs with
  | nil => simp at h
  | cons hd tl ih =>
    rw [List.mem_cons] at h
    rcases h with rfl | h
    · simp [jsizeList]
    · have := ih h
      simp only [jsizeList]
      omega

theorem jsizeEntries_enumFrom (i : Nat) (xs : List JsVal) :
    jsizeEntries (enumEntriesFrom i xs) = jsizeList xs := by
  induction xs generalizing i with
  | nil => simp [enumEntriesFrom, jsizeEntries, jsizeList]
  | cons hd tl ih =>
    simp [enumEntriesFrom, jsizeEntries, jsizeList, ih]

theorem jsizeEntries_enum (xs : List JsVal) :
    jsizeEntries (enumEntries xs) = jsizeList xs :=
  jsizeEntries_enumFrom 0 xs

theorem getField_structured_lt {args : JsVal} {k : String} {v : JsVal}
    (h : getField args k = v)
    (hv : (∃ e, v = JsVal.obj e) ∨ (∃ xs, v = JsVal.arr xs)) :
    jsize v < jsize args := by
  have hnotstr : ∀ c : Char, v ≠ JsVal.str (String.mk [c]) := by
    rcases hv with ⟨e, rfl⟩ | ⟨xs, rfl⟩ <;> intro c <;> simp
  have hnotund : v ≠ JsVal.undefined := by
    rcases hv with ⟨e, rfl⟩ | ⟨xs, rfl⟩ <;> simp
  cases args with
  | obj l =>
    simp only [getField] at h
    cases hl : lookupEntry l k with
    | none => rw [hl] at h; exact absurd h.symm hnotund
    | some w =>
      rw [hl] at h
      obtain rfl : w = v := by simpa using h
      have := lookupEntry_jsize hl
      simp only [jsize]
      omega
  | arr xs =>
    simp only [getField] at h
    cases hn : k.toNat? with
    | none => rw [hn] at h; exact absurd h.symm hnotund
    | some i =>
      rw [hn] at h
      dsimp only at h
      have hmem : v ∈ xs := by
        cases hg : xs.get? i with
        | none => rw [hg] at h; exact absurd h.symm hnotund
        | some w =>
          rw [hg] at h
          obtain rfl : w = v := h
          exact List.get?_mem hg
      have := mem_jsizeList hmem
      simp only [jsize]
      omega
  | str s =>
    simp only [getField] at h
    cases hn : k.toNat? with
    | none => rw [hn] at h; exact absurd h.symm hnotund
    | some i =>
      rw [hn] at h
      dsimp only at h
      cases hg : s.data.get? i with
      | none => rw [hg] at h; exact absurd h.symm hnotund
      | some c => rw [hg] at h; exact absurd h.symm (hnotstr c)
  | null => exact absurd h.symm hnotund
  | undefined => exact absurd h.symm hnotund
  | int n => exact absurd h.symm hnotund
  | bool b => exact absurd h.symm hnotund
  | date t => exact absurd h.symm hnotund

theorem getField_obj_lt {args : JsVal} {k : String} {e : List (String × JsVal)}
    (h : getField args k = .obj e) : jsize (JsVal.obj e) < jsize args :=
  getField_structured_lt h (Or.inl ⟨e, rfl⟩)

theorem getField_arr_lt {args : JsVal} {k : String} {xs : List JsVal}
    (h : getField args k = .arr xs) : jsize (JsVal.arr xs) < jsize args :=
  getField_structured_lt h (Or.inr ⟨xs, rfl⟩)

/-- Drizzle SQL predicate objects as an opaque AST.  Column positions hold
`Option Column` because the source indexes the model without a null check in
the cursor path (lines 95, 100), so `undefined` can flow into `asc`/`gt`/`eq`.
`wrapE` is the `SQL` wrapper drizzle's `and`/`or` return for a single
condition; `undefSql` stands for an `undefined` embedded by `not`. -/
inductive SQLExpr : Type where
  | eqE (c : Option Column) (v : JsVal) : SQLExpr
  | neE (c : Option Column) (v : JsVal) : SQLExpr
  | ltE (c : Option Column) (v : JsVal) : SQLExpr
  | lteE (c : Option Column) (v : JsVal) : SQLExpr
  | gtE (c : Option Column) (v : JsVal) : SQLExpr
  | gteE (c : Option Column) (v : JsVal) : SQLExpr
  | isNullE (c : Option Column) : SQLExpr
  | isNotNullE (c : Option Column) : SQLExpr
  | likeE (c : Option Column) (v : JsVal) : SQLExpr
  | ilikeE (c : Option Column) (v : JsVal) : SQLExpr
  | notLikeE (c : Option Column) (v : JsVal) : SQLExpr
  | notIlikeE (c : Option Column) (v : JsVal) : SQLExpr
  | inArrayE (c : Option Column) (vs : List JsVal) : SQLExpr
  | notInArrayE (c : Option Column) (vs : List JsVal) : SQLExpr
  | arrayContainsE (c : Option Column) (v : JsVal) : SQLExpr
  | arrayContainedE (c : Option Column) (v : JsVal) : SQLExpr
  | arrayOverlapsE (c : Option Column) (v : JsVal) : SQLExpr
  | notE (e : SQLExpr) : SQLExpr
  | undefSql : SQLExpr
  | wrapE (e : SQLExpr) : SQLExpr
  | andE (es : List SQLExpr) : SQLExpr
  | orE (es : List SQLExpr) : SQLExpr

/-- A drizzle sort term, `asc(column)` or `desc(column)`. -/
inductive SortTerm : Type where
  | ascT (c : Option Column) : SortTerm
  | descT (c : Option Column) : SortTerm

/-- The column a sort term refers to. -/
def SortTerm.col : SortTerm → Option Column
  | .ascT c => c
  | .descT c => c

/-- drizzle's `and(...conditions)`: drops `undefined` arguments, returns
`undefined` for no conditions, wraps a single condition in a bare `SQL`, and
builds a conjunction otherwise. -/
def andD (cs : List (Option SQLExpr)) : Option SQLExpr :=
  match cs.filterMap id with
  | [] => none
  | [c] => some (SQLExpr.wrapE c)
  | l => some (SQLExpr.andE l)

/-- drizzle's `or(...conditions)`, same filtering behavior as `and`. -/
def orD (cs : List (Option SQLExpr)) : Option SQLExpr :=
  match cs.filterMap id with
  | [] => none
  | [c] => some (SQLExpr.wrapE c)
  | l => some (SQLExpr.orE l)

/-- drizzle's `not(condition)` applied to a possibly-undefined condition
(`not(this.parseWhere(v) as SQLWrapper)`, source line 327). -/
def notD (p : Option SQLExpr) : SQLExpr :=
  match p with
  | some e => .notE e
  | none => .notE .undefSql

/-- Thrown exceptions.  The four documented kinds carry the message of the
`Error` the source throws; `runtimeError` covers TypeErrors / RangeErrors the
engine raises (empty-cursor destructuring, property access on null, the
non-terminating `not` recursion). -/
inductive Err : Type where
  | invalidField (msg : String) : Err
  | invalidOperand (msg : String) : Err
  | unsupportedOperator (msg : String) : Err
  | unsupportedShape (msg : String) : Err
  | runtimeError (msg : String) : Err

/-- Whether an error is one of the four documented error kinds. -/
def isDocumentedError : Err → Bool
  | .runtimeError _ => false
  | _ => true

mutual

/-- The translated query arguments object (`DrizzleQueryArgs`): optional
`where`, `with`, `columns`, `limit`, `offset`, `orderBy` members.  A member
holding `undefined` is indistinguishable from an absent member to every
reader, so both are `none`. -/
inductive DrizzleResp : Type where
  | mk (whereC : Option SQLExpr) (withC : Option (List (String × WithVal)))
      (columns : Option JsVal) (limit : Option JsVal) (offset : Option JsVal)
      (orderBy : Option (List SortTerm)) : DrizzleResp

/-- A value of the `with` map: either a passed-through scalar or the result of
recursively translating a nested query description (source lines 187-192). -/
inductive WithVal : Type where
  | plain (v : JsVal) : WithVal
  | nested (r : DrizzleResp) : WithVal

end

def DrizzleResp.whereC : DrizzleResp → Option SQLExpr
  | .mk w _ _ _ _ _ => w

def DrizzleResp.withC : DrizzleResp → Option (List (String × WithVal))
  | .mk _ w _ _ _ _ => w

def DrizzleResp.columns : DrizzleResp → Option JsVal
  | .mk _ _ c _ _ _ => c

def DrizzleResp.limit : DrizzleResp → Option JsVal
  | .mk _ _ _ l _ _ => l

def DrizzleResp.offset : DrizzleResp → Option JsVal
  | .mk _ _ _ _ o _ => o

def DrizzleResp.orderBy : DrizzleResp → Option (List SortTerm)
  | .mk _ _ _ _ _ ob => ob

def DrizzleResp.setWhere : DrizzleResp → Option SQLExpr → DrizzleResp
  | .mk _ b c d e f, w => .mk w b c d e f

def DrizzleResp.setWith : DrizzleResp → Option (List (String × WithVal)) → DrizzleResp
  | .mk a _ c d e f, w => .mk a w c d e f

def DrizzleResp.setColumns : DrizzleResp → Option JsVal → DrizzleResp
  | .mk a b _ d e f, c => .mk a b c d e f

def DrizzleResp.setLimit : DrizzleResp → Option JsVal → DrizzleResp
  | .mk a b c _ e f, l => .mk a b c l e f

def DrizzleResp.setOffset : DrizzleResp → Option JsVal → DrizzleResp
  | .mk a b c d _ f, o => .mk a b c d o f

def DrizzleResp.setOrderBy : DrizzleResp → Option (List SortTerm) → DrizzleResp
  | .mk a b c d e _, ob => .mk a b c d e ob

/-- `const response: UnknownRecord = {}` (source line 46). -/
def emptyResp : DrizzleResp := .mk none none none none none none

/-- One cursor triple `[column, order, cursorValue]` (a two-element tuple has
`cursorValue` = `undefined`).  The column slot holds the unchecked model
lookup, which can be `undefined`. -/
structure CursorTriple : Type where
  column : Option Column
  order : JsVal
  cursor : JsVal

/-- Return shape of `withCursorPagination`. -/
structure PageResult : Type where
  orderBy : List SortTerm
  limit : JsVal
  whereC : Option SQLExpr

/-- `withCursorPagination` (source lines 212-302): keyset pagination with one
or two `(column, order, cursor)` triples. -/
def withCursorPagination (cursors : CursorTriple × Option CursorTriple)
    (limit : JsVal) (inputWhere : Option SQLExpr) : PageResult :=
  -- Primary cursor (lines 246-249)
  let primaryColumn := cursors.1.column
  let primaryAsc := ascVal cursors.1.order
  let primaryCursor := cursors.1.cursor
  -- Secondary cursor (lines 252-260); `null`/absent collapse to `none`
  let secondaryColumn : Option Column :=
    match cursors.2 with
    | some s => s.column
    | none => none
  let secondaryAsc : Bool :=
    match cursors.2 with
    | some s => ascVal s.order
    | none => false
  let secondaryCursor : JsVal :=
    match cursors.2 with
    | some s => s.cursor
    | none => .undefined
  -- Single cursor pagination (lines 263-266)
  let singleColumnPaginationWhere : Option SQLExpr :=
    if isUndefinedVal primaryCursor then none
    else some ((if primaryAsc then SQLExpr.gtE else SQLExpr.ltE)
      primaryColumn primaryCursor)
  -- Double cursor pagination (lines 269-281)
  let doubleColumnPaginationWhere : Option SQLExpr :=
    if secondaryColumn.isSome && cursors.2.isSome &&
        !(isUndefinedVal primaryCursor) && !(isUndefinedVal secondaryCursor) then
      orD [some ((if primaryAsc then SQLExpr.gtE else SQLExpr.ltE)
              primaryColumn primaryCursor),
           andD [some (SQLExpr.eqE primaryColumn primaryCursor),
                 some ((if secondaryAsc then SQLExpr.gtE else SQLExpr.ltE)
                   secondaryColumn secondaryCursor)]]
    else none
  -- Final where clause (lines 284-289)
  let paginationWhere :=
    if secondaryColumn.isSome then doubleColumnPaginationWhere
    else singleColumnPaginationWhere
  let whereC : Option SQLExpr :=
    match inputWhere with
    | some w =>
      match paginationWhere with
      | some pw => andD [some w, some pw]
      | none => some w
    | none => paginationWhere
  -- Return object (lines 292-301)
  { orderBy :=
      [(if primaryAsc then SortTerm.ascT else SortTerm.descT) primaryColumn] ++
      (if secondaryColumn.isSome && cursors.2.isSome then
        [(if secondaryAsc then SortTerm.ascT else SortTerm.descT)
          secondaryColumn]
      else []),
    limit := limit,
    whereC := whereC }

/-- `parseSelect` (source lines 198-210): rejects any `typeof value ===
'object'` entry, includes truthy entries with an unchecked model lookup,
skips falsy entries. -/
def parseSelect (model : Model) : List (String × JsVal) →
    Except Err (List (String × Option Column))
  | [] => .ok []
  | (k, v) :: rest =>
    if typeofObject v then .error (.unsupportedShape "Nested select is not supported")
    else if jsTruthy v then do
      let r ← parseSelect model rest
      .ok ((k, lookupCol model k) :: r)
    else parseSelect model rest

/-- `Object.entries(v)` with JavaScript semantics: plain entries for objects,
index-keyed entries for arrays and strings, a TypeError for `null` and
`undefined`, empty for other primitives. -/
def entriesOfE : JsVal → Except Err (List (String × JsVal))
  | .obj e => .ok e
  | .arr xs => .ok (enumEntries xs)
  | .str s => .ok (charEntries s)
  | .null => .error (.runtimeError "TypeError: Cannot convert undefined or null to object")
  | .undefined => .error (.runtimeError "TypeError: Cannot convert undefined or null to object")
  | _ => .ok []

/-- Assigning a JS value to a response member: assigning `undefined` leaves
the member observably absent. -/
def collapseUndef : JsVal → Option JsVal
  | .undefined => none
  | v => some v

/-- Helper for the lexicographic termination proofs below. -/
theorem lex3 {a b r1 r2 x y : Nat}
    (h : a < b ∨ (a = b ∧ (r1 < r2 ∨ (r1 = r2 ∧ x < y)))) :
    Prod.Lex (· < ·) (Prod.Lex (· < ·) (· < ·)) (a, (r1, x)) (b, (r2, y)) := by
  rcases h with h | ⟨rfl, h | ⟨rfl, h⟩⟩
  · exact Prod.Lex.left _ _ h
  · exact Prod.Lex.right _ (Prod.Lex.left _ _ h)
  · exact Prod.Lex.right _ (Prod.Lex.right _ h)

/-- `parseWhere` applied to a primitive string (its `Object.entries` are
index-keyed single characters, which all take the literal-equality branch). -/
def parseWhereOfString (model : Model) (s : String) :
    Except Err (Option SQLExpr) := do
  let ps ← (charEntries s).mapM (fun p =>
    match lookupCol model p.1 with
    | none => Except.error (Err.invalidField ("Invalid where field: " ++ p.1))
    | some c => Except.ok (some (SQLExpr.eqE (some c) p.2)))
  pure (andD ps)

/-- `parseInclude` applied to a primitive string: every character entry has
`typeof value === 'string'`, so all are passed through. -/
def stringIncludeEntries (s : String) : List (String × WithVal) :=
  (charEntries s).map (fun p => (p.1, WithVal.plain p.2))

/-- One `orderBy` entry (source lines 74-83): resolve the field, fail with
the invalid-orderBy-field error when absent, emit `asc`/`desc`. -/
def orderByTerm (model : Model) (p : String × JsVal) : Except Err SortTerm :=
  match lookupCol model p.1 with
  | none => .error (.invalidField ("Invalid orderBy field: " ++ p.1))
  | some c => .ok (if ascVal p.2 then .ascT (some c) else .descT (some c))

/-- `if (args.select) response.columns = args.select` (source lines 56-58):
the select member is passed through raw — `parseSelect` is never invoked. -/
def stepSelect (args : JsVal) (r : DrizzleResp) : DrizzleResp :=
  if jsTruthy (getField args "select") then
    r.setColumns (some (getField args "select"))
  else r

/-- `if (args.take) response.limit = args.take` (source lines 60-62). -/
def stepTake (args : JsVal) (r : DrizzleResp) : DrizzleResp :=
  if jsTruthy (getField args "take") then
    r.setLimit (some (getField args "take"))
  else r

/-- `if (args.skip) response.offset = args.skip` (source lines 64-66). -/
def stepSkip (args : JsVal) (r : DrizzleResp) : DrizzleResp :=
  if jsTruthy (getField args "skip") then
    r.setOffset (some (getField args "skip"))
  else r

/-- The `orderBy` block of `transformQuery` (source lines 68-86): normalize to
an array, flat-map each element's entries to sort terms. -/
def stepOrderBy (model : Model) (args : JsVal) (r : DrizzleResp) :
    Except Err DrizzleResp :=
  if jsTruthy (getField args "orderBy") then do
    let elems :=
      match getField args "orderBy" with
      | .arr xs => xs
      | v => [v]
    let termLists ← elems.mapM (fun el => do
      let es ← entriesOfE el
      es.mapM (orderByTerm model))
    pure (r.setOrderBy (some termLists.flatten))
  else pure r

/-- The `cursor` block of `transformQuery` (source lines 88-110): destructure
the first cursor entry — a TypeError when there is none — build the
`createdAt` triple first and the caller's key second, call
`withCursorPagination` with the already-computed where/limit, and overwrite
`where`, `limit` and `orderBy` with its output. -/
def stepCursor (model : Model) (args : JsVal) (r : DrizzleResp) :
    Except Err DrizzleResp :=
  if jsTruthy (getField args "cursor") then do
    let entries ← entriesOfE (getField args "cursor")
    match entries with
    | [] => .error (.runtimeError "TypeError: undefined is not iterable")
    | (key, value) :: _ =>
      let orderByV := getField args "orderBy"
      let primary : CursorTriple :=
        { column := lookupCol model "createdAt",
          order := nullish (optChainGet orderByV "createdAt") (.str "asc"),
          cursor := getField (getField args "cursor") "createdAt" }
      let secondary : CursorTriple :=
        { column := lookupCol model key,
          order := nullish (optChainGet orderByV key) (.str "asc"),
          cursor := value }
      let res := withCursorPagination (primary, some secondary)
        (r.limit.getD .undefined) r.whereC
      pure (((r.setWhere res.whereC).setLimit
        (collapseUndef res.limit)).setOrderBy (some res.orderBy))
  else pure r

mutual

/-- `this.parseWhere(v)` applied to one operand value of a logical keyword
(source lines 325-329): `parseWhere` iterates `Object.entries(v)`. -/
def parseLogicalOne (model : Model) (v : JsVal) : Except Err (Option SQLExpr) :=
  match v with
  | .obj e => parseWhere model e
  | .arr ys => parseWhere model (enumEntries ys)
  | .str s => parseWhereOfString model s
  | .null => Except.error (Err.runtimeError
      "TypeError: Cannot convert undefined or null to object")
  | .undefined => Except.error (Err.runtimeError
      "TypeError: Cannot convert undefined or null to object")
  | .int _ => parseWhere model []
  | .bool _ => parseWhere model []
  | .date _ => parseWhere model []
termination_by (jsize v, 0, 0)
decreasing_by
  all_goals simp_wf
  all_goals apply lex3
  all_goals simp only [jsize, jsizeList, jsizeEntries, jsizeEntries_enum,
    true_and, and_true, eq_self_iff_true, true_or, or_true]
  all_goals omega

/-- `parseOperators` (source lines 304-356): logical keywords normalize a
non-array container to a one-element array, recursively parse each element via
`parseWhere` (negating under a `NOT` join context), and join with `or` under
an `OR` context, `and` otherwise.  Non-logical operators resolve the field to
a column (failing with the invalid-field error) and dispatch into the
operator map (source lines 358-466); an unknown keyword fails with the
unsupported-operator error. -/
def parseOperators (model : Model) (operatorObject : JsVal) (operator : String)
    (operatorValue : JsVal) (fieldOrJoinOperator : String) :
    Except Err (Option SQLExpr) :=
  if operator = "AND" ∨ operator = "OR" ∨ operator = "NOT" then
    match operatorObject with
    | .arr xs => do
      let ps ← parseLogicalList model xs fieldOrJoinOperator
      pure (if fieldOrJoinOperator = "OR" then orD ps else andD ps)
    | single => do
      let p ← parseLogicalOne model single
      let q := if fieldOrJoinOperator = "NOT" then some (notD p) else p
      pure (if fieldOrJoinOperator = "OR" then orD [q] else andD [q])
  else
    match lookupCol model fieldOrJoinOperator with
    | none => .error (.invalidField ("Invalid field: " ++ fieldOrJoinOperator))
    | some property =>
      match operator with
      | "not" =>
        -- source lines 367-382; for an object operand the source re-enters
        -- itself with identical arguments, which never terminates and
        -- overflows the call stack
        match operatorValue with
        | .null => .ok (some (.isNotNullE (some property)))
        | .obj _ => .error (.runtimeError
            "RangeError: Maximum call stack size exceeded")
        | .arr _ => .error (.runtimeError
            "RangeError: Maximum call stack size exceeded")
        | .date _ => .error (.runtimeError
            "RangeError: Maximum call stack size exceeded")
        | _ => .ok (some (.notE (.eqE (some property) operatorValue)))
      | "in" =>
        match operatorValue with
        | .arr vs => .ok (some (.inArrayE (some property) vs))
        | _ => .error (.invalidOperand "Value for 'in' operator must be an array")
      | "notIn" =>
        match operatorValue with
        | .arr vs => .ok (some (.notInArrayE (some property) vs))
        | _ => .error (.invalidOperand "Value for 'notIn' operator must be an array")
      | "lt" => .ok (some (if fieldOrJoinOperator = "NOT" then
          .notE (.ltE (some property) operatorValue)
          else .ltE (some property) operatorValue))
      | "lte" => .ok (some (if fieldOrJoinOperator = "NOT" then
          .notE (.lteE (some property) operatorValue)
          else .lteE (some property) operatorValue))
      | "gt" => .ok (some (if fieldOrJoinOperator = "NOT" then
          .notE (.gtE (some property) operatorValue)
          else .gtE (some property) operatorValue))
      | "gte" => .ok (some (if fieldOrJoinOperator = "NOT" then
          .notE (.gteE (some property) operatorValue)
          else .gteE (some property) operatorValue))
      | "contains" =>
        match operatorValue with
        | .arr _ => .error (.invalidOperand "Value for 'contains' operator must be a string")
        | .null => .error (.invalidOperand "Value for 'contains' operator must be a string")
        | _ =>
          if fieldOrJoinOperator = "NOT" then
            .ok (some (if insensitiveVal (optChainGet operatorObject "mode") then
              .notIlikeE (some property) operatorValue
              else .notLikeE (some property) operatorValue))
          else
            .ok (some (if insensitiveVal (optChainGet operatorObject "mode") then
              .ilikeE (some property) operatorValue
              else .likeE (some property) operatorValue))
      | "equals" => .ok (some (if fieldOrJoinOperator = "NOT" then
          .neE (some property) operatorValue
          else .eqE (some property) operatorValue))
      | "has" => .ok (some (.arrayContainsE (some property) operatorValue))
      | "hasEvery" => .ok (some (.arrayContainedE (some property) operatorValue))
      | "hasSome" => .ok (some (.arrayOverlapsE (some property) operatorValue))
      | _ => .error (.unsupportedOperator ("Unsupported operator: " ++ operator))
termination_by (jsize operatorObject, 1, 0)
decreasing_by
  all_goals simp_wf
  all_goals apply lex3
  all_goals simp only [jsize, jsizeList, jsizeEntries, jsizeEntries_enum,
    List.length_cons, true_and, and_true, eq_self_iff_true, true_or, or_true]
  all_goals omega

/-- The per-element loop of the logical branch of `parseOperators` (source
lines 324-330): parse each element with `parseWhere`, negating when the join
context is `NOT`. -/
def parseLogicalList (model : Model) (xs : List JsVal)
    (fieldOrJoinOperator : String) : Except Err (List (Option SQLExpr)) :=
  match xs with
  | [] => .ok []
  | v :: rest => do
    let p ← parseLogicalOne model v
    let q := if fieldOrJoinOperator = "NOT" then some (notD p) else p
    let ps ← parseLogicalList model rest fieldOrJoinOperator
    pure (q :: ps)
termination_by (jsizeList xs, 6, xs.length)
decreasing_by
  all_goals simp_wf
  all_goals apply lex3
  all_goals simp only [jsize, jsizeList, jsizeEntries, jsizeEntries_enum,
    List.length_cons, true_and, and_true, eq_self_iff_true, true_or, or_true]
  all_goals omega

/-- The entry loop of `parseWhere`'s object branch (source lines 133-147):
skip the `mode` modifier key, dispatch every other entry to
`parseOperators`. -/
def parseOpsList (model : Model) (operatorObject : JsVal)
    (l : List (String × JsVal)) (identifier : String) :
    Except Err (List (Option SQLExpr)) :=
  match l with
  | [] => .ok []
  | (key, v) :: rest =>
    if key = "mode" then parseOpsList model operatorObject rest identifier
    else do
      let p ← parseOperators model operatorObject key v identifier
      let ps ← parseOpsList model operatorObject rest identifier
      pure (p :: ps)
termination_by (jsize operatorObject, 2, l.length)
decreasing_by
  all_goals simp_wf
  all_goals apply lex3
  all_goals simp only [jsize, jsizeList, jsizeEntries, jsizeEntries_enum,
    List.length_cons, true_and, and_true, eq_self_iff_true, true_or, or_true]
  all_goals omega

/-- One entry of a where tree (the switch of source lines 122-179). -/
def parseEntry (model : Model) (identifier : String) (value : JsVal) :
    Except Err (Option SQLExpr) :=
  match value with
  | .null =>
    match lookupCol model identifier with
    | none => .error (.invalidField ("Invalid where field: " ++ identifier))
    | some property => .ok (some (.isNullE (some property)))
  | .obj e => do
    let ops ← parseOpsList model (.obj e) e identifier
    match ops with
    | [op1] => pure op1
    | ops' => pure (if identifier = "OR" then orD ops' else andD ops')
  | .arr xs => parseOperators model (.arr xs) identifier (.arr xs) identifier
  | .undefined => .ok none
  | v =>
    match lookupCol model identifier with
    | none => .error (.invalidField ("Invalid where field: " ++ identifier))
    | some property => .ok (some (.eqE (some property) v))
termination_by (jsize value, 3, 0)
decreasing_by
  all_goals simp_wf
  all_goals apply lex3
  all_goals simp only [jsize, jsizeList, jsizeEntries, jsizeEntries_enum,
    List.length_cons, true_and, and_true, eq_self_iff_true, true_or, or_true]
  all_goals omega

/-- The entry map of `parseWhere` (source line 117). -/
def parseWhereList (model : Model) (l : List (String × JsVal)) :
    Except Err (List (Option SQLExpr)) :=
  match l with
  | [] => .ok []
  | (identifier, v) :: rest => do
    let p ← parseEntry model identifier v
    let ps ← parseWhereList model rest
    pure (p :: ps)
termination_by (jsizeEntries l, 4, l.length)
decreasing_by
  all_goals simp_wf
  all_goals apply lex3
  all_goals simp only [jsize, jsizeList, jsizeEntries, jsizeEntries_enum,
    List.length_cons, true_and, and_true, eq_self_iff_true, true_or, or_true]
  all_goals omega

/-- `parseWhere` (source lines 115-182): map every entry and combine with
drizzle's `and`. -/
def parseWhere (model : Model) (l : List (String × JsVal)) :
    Except Err (Option SQLExpr) := do
  let ps ← parseWhereList model l
  pure (andD ps)
termination_by (jsizeEntries l, 5, 0)
decreasing_by
  all_goals simp_wf
  all_goals apply lex3
  all_goals simp only [jsize, jsizeList, jsizeEntries, jsizeEntries_enum,
    List.length_cons, true_and, and_true, eq_self_iff_true, true_or, or_true]
  all_goals omega

/-- `parseInclude` (source lines 184-196): recursively translate
`typeof value === 'object'` values, pass everything else through. -/
def parseInclude (model : Model) (l : List (String × JsVal)) :
    Except Err (List (String × WithVal)) :=
  match l with
  | [] => .ok []
  | (k, v) :: rest =>
    if typeofObject v then do
      let r ← transformQuery model v
      let rs ← parseInclude model rest
      pure ((k, WithVal.nested r) :: rs)
    else do
      let rs ← parseInclude model rest
      pure ((k, WithVal.plain v) :: rs)
termination_by (jsizeEntries l, 8, l.length)
decreasing_by
  all_goals simp_wf
  all_goals apply lex3
  all_goals have := jsize_pos v
  all_goals simp only [jsize, jsizeList, jsizeEntries]
  all_goals omega

/-- The `where` member of the response: `parseWhere(args.where)` when the
member is truthy (source lines 48-50), absent otherwise. -/
def whereValE (model : Model) (args : JsVal) : Except Err (Option SQLExpr) :=
  if jsTruthy (getField args "where") then
    match hw : getField args "where" with
    | .obj e => parseWhere model e
    | .arr xs => parseWhere model (enumEntries xs)
    | .str s => parseWhereOfString model s
    | .null => Except.error (Err.runtimeError
        "TypeError: Cannot convert undefined or null to object")
    | .undefined => Except.error (Err.runtimeError
        "TypeError: Cannot convert undefined or null to object")
    | .int _ => parseWhere model []
    | .bool _ => parseWhere model []
    | .date _ => parseWhere model []
  else pure none
termination_by (jsize args, 4, 0)
decreasing_by
  all_goals simp_wf
  all_goals apply lex3
  all_goals first
    | (have h := getField_obj_lt hw;
       simp only [jsize, jsizeList, jsizeEntries, jsizeEntries_enum,
         true_and, and_true, eq_self_iff_true, true_or, or_true] at h ⊢; omega)
    | (have h := getField_arr_lt hw;
       simp only [jsize, jsizeList, jsizeEntries, jsizeEntries_enum,
         true_and, and_true, eq_self_iff_true, true_or, or_true] at h ⊢; omega)
    | (have h := jsize_pos args;
       simp only [jsize, jsizeList, jsizeEntries, jsizeEntries_enum,
         true_and, and_true, eq_self_iff_true, true_or, or_true] at h ⊢; omega)

/-- The `with` member of the response: `parseInclude(args.include)` when the
member is truthy (source lines 52-54), absent otherwise. -/
def includeValE (model : Model) (args : JsVal) :
    Except Err (Option (List (String × WithVal))) :=
  if jsTruthy (getField args "include") then
    (match hi : getField args "include" with
      | .obj e => parseInclude model e
      | .arr xs => parseInclude model (enumEntries xs)
      | .str s => Except.ok (stringIncludeEntries s)
      | .null => Except.error (Err.runtimeError
          "TypeError: Cannot convert undefined or null to object")
      | .undefined => Except.error (Err.runtimeError
          "TypeError: Cannot convert undefined or null to object")
      | .int _ => parseInclude model []
      | .bool _ => parseInclude model []
      | .date _ => parseInclude model []
    ).map some
  else pure none
termination_by (jsize args, 5, 0)
decreasing_by
  all_goals simp_wf
  all_goals apply lex3
  all_goals first
    | (have h := getField_obj_lt hi;
       simp only [jsize, jsizeList, jsizeEntries, jsizeEntries_enum,
         true_and, and_true, eq_self_iff_true, true_or, or_true] at h ⊢; omega)
    | (have h := getField_arr_lt hi;
       simp only [jsize, jsizeList, jsizeEntries, jsizeEntries_enum,
         true_and, and_true, eq_self_iff_true, true_or, or_true] at h ⊢; omega)
    | (have h := jsize_pos args;
       simp only [jsize, jsizeList, jsizeEntries, jsizeEntries_enum,
         true_and, and_true, eq_self_iff_true, true_or, or_true] at h ⊢; omega)

/-- The `where`, `include`, `select`, `take`, `skip` and `orderBy` blocks of
`transformQuery` (source lines 46-86), before cursor handling. -/
def preCursor (model : Model) (args : JsVal) : Except Err DrizzleResp :=
  whereValE model args >>= fun w =>
    includeValE model args >>= fun iv =>
      stepOrderBy model args (stepSkip args (stepTake args (stepSelect args
        ((emptyResp.setWhere w).setWith iv))))
termination_by (jsize args, 6, 0)
decreasing_by
  all_goals simp_wf
  all_goals apply lex3
  all_goals simp only [true_and, and_true, eq_self_iff_true, true_or, or_true]
  all_goals omega

/-- `transformQuery` (source lines 45-113): property access on a nullish
argument throws; otherwise apply the pre-cursor blocks and then the cursor
block. -/
def transformQuery (model : Model) (args : JsVal) : Except Err DrizzleResp :=
  match args with
  | .null => .error (.runtimeError
      "TypeError: Cannot read properties of null")
  | .undefined => .error (.runtimeError
      "TypeError: Cannot read properties of undefined")
  | args => do
    let r ← preCursor model args
    stepCursor model args r
termination_by (jsize args, 7, 0)
decreasing_by
  all_goals simp_wf
  all_goals apply lex3
  all_goals simp only [jsize, jsizeList, jsizeEntries, jsizeEntries_enum,
    List.length_cons, true_and, and_true, eq_self_iff_true, true_or, or_true]
  all_goals omega

end


@[simp] theorem exceptOkBind {α β : Type} (a : α) (f : α → Except Err β) :
    (Except.ok a >>= f) = f a := rfl

@[simp] theorem exceptErrBind {α β : Type} (e : Err) (f : α → Except Err β) :
    ((Except.error e : Except Err α) >>= f) = Except.error e := rfl

@[simp] theorem exceptOkMap {α β : Type} (a : α) (f : α → β) :
    (Except.ok a : Except Err α).map f = Except.ok (f a) := rfl

@[simp] theorem exceptErrMap {α β : Type} (e : Err) (f : α → β) :
    (Except.error e : Except Err α).map f = Except.error e := rfl

@[simp] theorem exceptPure {α : Type} (a : α) :
    (pure a : Except Err α) = Except.ok a := rfl


theorem exceptBind_ok_iff {α β : Type} {x : Except Err α} {f : α → Except Err β}
    {b : β} : (x >>= f) = .ok b ↔ ∃ a, x = .ok a ∧ f a = .ok b := by
  cases x <;> simp

theorem exceptMap_ok_iff {α β : Type} {x : Except Err α} {f : α → β} {b : β} :
    x.map f = .ok b ↔ ∃ a, x = .ok a ∧ f a = b := by
  cases x <;> simp [Except.map]

@[simp] theorem setWhere_whereC (r : DrizzleResp) (v) :
    (DrizzleResp.setWhere r v).whereC = v := by cases r; rfl

@[simp] theorem setWhere_withC (r : DrizzleResp) (v) :
    (DrizzleResp.setWhere r v).withC = r.withC := by cases r; rfl

@[simp] theorem setWhere_columns (r : DrizzleResp) (v) :
    (DrizzleResp.setWhere r v).columns = r.columns := by cases r; rfl

@[simp] theorem setWhere_limit (r : DrizzleResp) (v) :
    (DrizzleResp.setWhere r v).limit = r.limit := by cases r; rfl

@[simp] theorem setWhere_offset (r : DrizzleResp) (v) :
    (DrizzleResp.setWhere r v).offset = r.offset := by cases r; rfl

@[simp] theorem setWhere_orderBy (r : DrizzleResp) (v) :
    (DrizzleResp.setWhere r v).orderBy = r.orderBy := by cases r; rfl

@[simp] theorem setWith_whereC (r : DrizzleResp) (v) :
    (DrizzleResp.setWith r v).whereC = r.whereC := by cases r; rfl

@[simp] theorem setWith_withC (r : DrizzleResp) (v) :
    (DrizzleResp.setWith r v).withC = v := by cases r; rfl

@[simp] theorem setWith_columns (r : DrizzleResp) (v) :
    (DrizzleResp.setWith r v).columns = r.columns := by cases r; rfl

@[simp] theorem setWith_limit (r : DrizzleResp) (v) :
    (DrizzleResp.setWith r v).limit = r.limit := by cases r; rfl

@[simp] theorem setWith_offset (r : DrizzleResp) (v) :
    (DrizzleResp.setWith r v).offset = r.offset := by cases r; rfl

@[simp] theorem setWith_orderBy (r : DrizzleResp) (v) :
    (DrizzleResp.setWith r v).orderBy = r.orderBy := by cases r; rfl

@[simp] theorem setColumns_whereC (r : DrizzleResp) (v) :
    (DrizzleResp.setColumns r v).whereC = r.whereC := by cases r; rfl

@[simp] theorem setColumns_withC (r : DrizzleResp) (v) :
    (DrizzleResp.setColumns r v).withC = r.withC := by cases r; rfl

@[simp] theorem setColumns_columns (r : DrizzleResp) (v) :
    (DrizzleResp.setColumns r v).columns = v := by cases r; rfl

@[simp] theorem setColumns_limit (r : DrizzleResp) (v) :
    (DrizzleResp.setColumns r v).limit = r.limit := by cases r; rfl

@[simp] theorem setColumns_offset (r : DrizzleResp) (v) :
    (DrizzleResp.setColumns r v).offset = r.offset := by cases r; rfl

@[simp] theorem setColumns_orderBy (r : DrizzleResp) (v) :
    (DrizzleResp.setColumns r v).orderBy = r.orderBy := by cases r; rfl

@[simp] theorem setLimit_whereC (r : DrizzleResp) (v) :
    (DrizzleResp.setLimit r v).whereC = r.whereC := by cases r; rfl

@[simp] theorem setLimit_withC (r : DrizzleResp) (v) :
    (DrizzleResp.setLimit r v).withC = r.withC := by cases r; rfl

@[simp] theorem setLimit_columns (r : DrizzleResp) (v) :
    (DrizzleResp.setLimit r v).columns = r.columns := by cases r; rfl

@[simp] theorem setLimit_limit (r : DrizzleResp) (v) :
    (DrizzleResp.setLimit r v).limit = v := by cases r; rfl

@[simp] theorem setLimit_offset (r : DrizzleResp) (v) :
    (DrizzleResp.setLimit r v).offset = r.offset := by cases r; rfl

@[simp] theorem setLimit_orderBy (r : DrizzleResp) (v) :
    (DrizzleResp.setLimit r v).orderBy = r.orderBy := by cases r; rfl

@[simp] theorem setOffset_whereC (r : DrizzleResp) (v) :
    (DrizzleResp.setOffset r v).whereC = r.whereC := by cases r; rfl

@[simp] theorem setOffset_withC (r : DrizzleResp) (v) :
    (DrizzleResp.setOffset r v).withC = r.withC := by cases r; rfl

@[simp] theorem setOffset_columns (r : DrizzleResp) (v) :
    (DrizzleResp.setOffset r v).columns = r.columns := by cases r; rfl

@[simp] theorem setOffset_limit (r : DrizzleResp) (v) :
    (DrizzleResp.setOffset r v).limit = r.limit := by cases r; rfl

@[simp] theorem setOffset_offset (r : DrizzleResp) (v) :
    (DrizzleResp.setOffset r v).offset = v := by cases r; rfl

@[simp] theorem setOffset_orderBy (r : DrizzleResp) (v) :
    (DrizzleResp.setOffset r v).orderBy = r.orderBy := by cases r; rfl

@[simp] theorem setOrderBy_whereC (r : DrizzleResp) (v) :
    (DrizzleResp.setOrderBy r v).whereC = r.whereC := by cases r; rfl

@[simp] theorem setOrderBy_withC (r : DrizzleResp) (v) :
    (DrizzleResp.setOrderBy r v).withC = r.withC := by cases r; rfl

@[simp] theorem setOrderBy_columns (r : DrizzleResp) (v) :
    (DrizzleResp.setOrderBy r v).columns = r.columns := by cases r; rfl

@[simp] theorem setOrderBy_limit (r : DrizzleResp) (v) :
    (DrizzleResp.setOrderBy r v).limit = r.limit := by cases r; rfl

@[simp] theorem setOrderBy_offset (r : DrizzleResp) (v) :
    (DrizzleResp.setOrderBy r v).offset = r.offset := by cases r; rfl

@[simp] theorem setOrderBy_orderBy (r : DrizzleResp) (v) :
    (DrizzleResp.setOrderBy r v).orderBy = v := by cases r; rfl

@[simp] theorem mk_whereC (a b c d e f) :
    (DrizzleResp.mk a b c d e f).whereC = a := rfl

@[simp] theorem mk_withC (a b c d e f) :
    (DrizzleResp.mk a b c d e f).withC = b := rfl

@[simp] theorem mk_columns (a b c d e f) :
    (DrizzleResp.mk a b c d e f).columns = c := rfl

@[simp] theorem mk_limit (a b c d e f) :
    (DrizzleResp.mk a b c d e f).limit = d := rfl

@[simp] theorem mk_offset (a b c d e f) :
    (DrizzleResp.mk a b c d e f).offset = e := rfl

@[simp] theorem mk_orderBy (a b c d e f) :
    (DrizzleResp.mk a b c d e f).orderBy = f := rfl

theorem transformQuery_decomp {model : Model} {args : JsVal} {r : DrizzleResp}
    (h : transformQuery model args = .ok r) :
    ∃ r6, preCursor model args = .ok r6 ∧ stepCursor model args r6 = .ok r := by
  cases args <;>
    simp only [transformQuery, exceptBind_ok_iff] at h <;>
    first
      | exact h
      | cases h

theorem preCursor_fields {model : Model} {args : JsVal} {r : DrizzleResp}
    (h : preCursor model args = .ok r) :
    r.columns = (if jsTruthy (getField args "select") then
        some (getField args "select") else none) ∧
    r.limit = (if jsTruthy (getField args "take") then
        some (getField args "take") else none) ∧
    r.offset = (if jsTruthy (getField args "skip") then
        some (getField args "skip") else none) := by
  rw [preCursor, exceptBind_ok_iff] at h
  obtain ⟨w, hw, h⟩ := h
  rw [exceptBind_ok_iff] at h
  obtain ⟨iv, hiv, h3⟩ := h
  have hfin : r.columns = (stepSkip args (stepTake args (stepSelect args
        ((emptyResp.setWhere w).setWith iv)))).columns ∧
      r.limit = (stepSkip args (stepTake args (stepSelect args
        ((emptyResp.setWhere w).setWith iv)))).limit ∧
      r.offset = (stepSkip args (stepTake args (stepSelect args
        ((emptyResp.setWhere w).setWith iv)))).offset := by
    rw [stepOrderBy] at h3
    split at h3
    · rw [exceptBind_ok_iff] at h3
      obtain ⟨ts, _, h3⟩ := h3
      obtain rfl : _ = r := by simpa using h3
      simp
    · obtain rfl : _ = r := by simpa using h3
      simp
  rcases hfin with ⟨hc, hl, ho⟩
  refine ⟨?_, ?_, ?_⟩
  · rw [hc]
    simp only [stepSkip, stepTake, stepSelect]
    split <;> split <;> split <;> simp [emptyResp]
  · rw [hl]
    simp only [stepSkip, stepTake, stepSelect]
    split <;> split <;> split <;> simp [emptyResp]
  · rw [ho]
    simp only [stepSkip, stepTake, stepSelect]
    split <;> split <;> split <;> simp [emptyResp]

theorem stepCursor_preserve {model : Model} {args : JsVal} {resp r : DrizzleResp}
    (h : stepCursor model args resp = .ok r) :
    r.columns = resp.columns ∧ r.offset = resp.offset ∧
    (resp.limit = none → r.limit = none) := by
  rw [stepCursor] at h
  split at h
  · rw [exceptBind_ok_iff] at h
    obtain ⟨entries, hent, h⟩ := h
    match entries with
    | [] => cases h
    | (key, value) :: tail =>
      obtain rfl : _ = r := by simpa using h
      refine ⟨by simp, by simp, ?_⟩
      intro hl
      simp [withCursorPagination, hl, collapseUndef]
  · obtain rfl : resp = r := by simpa using h
    exact ⟨rfl, rfl, fun hl => hl⟩

@[simp] theorem sortTermIf_col (c : Bool) (x : Option Column) :
    ((if c then SortTerm.ascT else SortTerm.descT) x).col = x := by
  split <;> rfl

theorem stepCursor_orderBy {model : Model} {args : JsVal} {resp r : DrizzleResp}
    {key : String} {value : JsVal} {rest : List (String × JsVal)} {kc : Column}
    (h : stepCursor model args resp = .ok r)
    (hc : jsTruthy (getField args "cursor") = true)
    (he : entriesOfE (getField args "cursor") = .ok ((key, value) :: rest))
    (hk : lookupCol model key = some kc) :
    r.orderBy.map (List.map SortTerm.col) =
      some [lookupCol model "createdAt", some kc] := by
  rw [stepCursor] at h
  rw [if_pos hc] at h
  rw [he] at h
  simp only [exceptOkBind] at h
  obtain rfl : _ = r := by simpa using h
  simp only [setOrderBy_orderBy]
  simp only [withCursorPagination, hk, Option.isSome_some, Bool.and_self,
    if_true, List.singleton_append]
  simp

/-- A scalar JS value: one that takes the literal-equality (default) branch of
`parseWhere`'s switch. -/
def isScalarVal : JsVal → Bool
  | .str _ => true
  | .int _ => true
  | .bool _ => true
  | .date _ => true
  | _ => false

/-- The strict boundary comparator picked per direction: `gt` for ascending,
`lt` for descending (source lines 248, 256). -/
def cmpE (asc : Bool) (c : Option Column) (v : JsVal) : SQLExpr :=
  if asc then .gtE c v else .ltE c v

/-- PostgreSQL semantics of `<@` — what drizzle's `arrayContained` emits:
every element of the column's array value lies in the operand array. -/
def pgArrayContained (colVal operand : List JsVal) : Prop :=
  ∀ x ∈ colVal, x ∈ operand

/-- The array-contains-all-of test the specification assigns to `hasEvery`:
the column's array value contains every element of the operand. -/
def arrayContainsAllOf (colVal operand : List JsVal) : Prop :=
  ∀ x ∈ operand, x ∈ colVal

theorem parseWhere_single (model : Model) (f : String) (v : JsVal) :
    parseWhere model [(f, v)] =
      match parseEntry model f v with
      | .error e => .error e
      | .ok p => .ok (andD [p]) := by
  rw [parseWhere, parseWhereList]
  cases h : parseEntry model f v <;> simp [parseWhereList, h]

/-- C7: for every field that resolves to a column (and, per the data model,
is not the reserved logical keyword `NOT`) and every scalar value, the
equality shorthand `{field: v}` and the explicit `{field: {equals: v}}`
produce the same predicate, an equality test of the column against `v`. -/
theorem equals_shorthand_equiv (model : Model) (f : String) (c : Column)
    (v : JsVal) (hcol : lookupCol model f = some c)
    (hs : isScalarVal v = true) (hnot : f ≠ "NOT") :
    parseWhere model [(f, v)] = parseWhere model [(f, .obj [("equals", v)])] ∧
    parseWhere model [(f, v)] = .ok (some (.wrapE (.eqE (some c) v))) := by
  have hsh : parseEntry model f v = .ok (some (.eqE (some c) v)) := by
    cases v <;> simp_all [parseEntry, isScalarVal]
  have heq : parseEntry model f (.obj [("equals", v)]) =
      .ok (some (.eqE (some c) v)) := by
    simp [parseEntry, parseOpsList, parseOperators, hcol, hnot]
  rw [parseWhere_single, parseWhere_single, hsh, heq]
  simp [andD, List.filterMap]

theorem equals_shorthand_equiv_witness :
    parseWhere [("name", ⟨"name"⟩)] [("name", .str "John")] =
      parseWhere [("name", ⟨"name"⟩)] [("name", .obj [("equals", .str "John")])] ∧
    parseWhere [("name", ⟨"name"⟩)] [("name", .str "John")] =
      .ok (some (.wrapE (.eqE (some ⟨"name"⟩) (.str "John")))) :=
  equals_shorthand_equiv [("name", ⟨"name"⟩)] "name" ⟨"name"⟩ (.str "John")
    (by simp [lookupCol, lookupEntry]) rfl (by simp)

/-- C8: a where entry with value `null` yields a null-test predicate on the
resolved column — the `isNull` primitive, never an equality with null — and
fails with the invalid-where-field error when the field does not resolve. -/
theorem null_entry_isNull (model : Model) (f : String) :
    (∀ c, lookupCol model f = some c →
      parseEntry model f .null = .ok (some (.isNullE (some c))) ∧
      parseWhere model [(f, .null)] = .ok (some (.wrapE (.isNullE (some c))))) ∧
    (lookupCol model f = none →
      parseWhere model [(f, .null)] =
        .error (.invalidField ("Invalid where field: " ++ f))) := by
  constructor
  · intro c hc
    have he : parseEntry model f .null = .ok (some (.isNullE (some c))) := by
      simp [parseEntry, hc]
    refine ⟨he, ?_⟩
    rw [parseWhere_single, he]
    simp [andD, List.filterMap]
  · intro hc
    rw [parseWhere_single]
    simp [parseEntry, hc]

theorem null_entry_isNull_witness :
    parseEntry [("sku", ⟨"sku"⟩)] "sku" .null =
      .ok (some (.isNullE (some ⟨"sku"⟩))) ∧
    parseWhere [("sku", ⟨"sku"⟩)] [("deletedAt", .null)] =
      .error (.invalidField "Invalid where field: deletedAt") := by
  refine ⟨((null_entry_isNull [("sku", ⟨"sku"⟩)] "sku").1 ⟨"sku"⟩
    (by simp [lookupCol, lookupEntry])).1, ?_⟩
  have h := (null_entry_isNull [("sku", ⟨"sku"⟩)] "deletedAt").2
    (by simp [lookupCol, lookupEntry])
  simpa using h

/-- C6: for a field resolving to a column, `in` with an array operand yields a
set-membership predicate and `notIn` a non-membership predicate; any
non-array operand makes either fail with the invalid-operand error. -/
theorem in_notIn_behavior (model : Model) (oo : JsVal) (f : String)
    (c : Column) (ov : JsVal) (hcol : lookupCol model f = some c) :
    (∀ xs, parseOperators model oo "in" (.arr xs) f =
      .ok (some (.inArrayE (some c) xs))) ∧
    (isArrVal ov = false → parseOperators model oo "in" ov f =
      .error (.invalidOperand "Value for 'in' operator must be an array")) ∧
    (∀ xs, parseOperators model oo "notIn" (.arr xs) f =
      .ok (some (.notInArrayE (some c) xs))) ∧
    (isArrVal ov = false → parseOperators model oo "notIn" ov f =
      .error (.invalidOperand "Value for 'notIn' operator must be an array")) := by
  refine ⟨?_, ?_, ?_, ?_⟩
  · intro xs
    rw [parseOperators.eq_def]
    simp [hcol]
  · intro hov
    cases ov with
    | arr xs => simp [isArrVal] at hov
    | null => rw [parseOperators.eq_def]; simp [hcol]
    | undefined => rw [parseOperators.eq_def]; simp [hcol]
    | str s => rw [parseOperators.eq_def]; simp [hcol]
    | int n => rw [parseOperators.eq_def]; simp [hcol]
    | bool b => rw [parseOperators.eq_def]; simp [hcol]
    | date t => rw [parseOperators.eq_def]; simp [hcol]
    | obj e => rw [parseOperators.eq_def]; simp [hcol]
  · intro xs
    rw [parseOperators.eq_def]
    simp [hcol]
  · intro hov
    cases ov with
    | arr xs => simp [isArrVal] at hov
    | null => rw [parseOperators.eq_def]; simp [hcol]
    | undefined => rw [parseOperators.eq_def]; simp [hcol]
    | str s => rw [parseOperators.eq_def]; simp [hcol]
    | int n => rw [parseOperators.eq_def]; simp [hcol]
    | bool b => rw [parseOperators.eq_def]; simp [hcol]
    | date t => rw [parseOperators.eq_def]; simp [hcol]
    | obj e => rw [parseOperators.eq_def]; simp [hcol]

theorem in_notIn_behavior_witness :
    parseOperators [("id", ⟨"id"⟩)] (.obj [("in", .arr [.str "1", .str "2"])])
      "in" (.arr [.str "1", .str "2"]) "id" =
      .ok (some (.inArrayE (some ⟨"id"⟩) [.str "1", .str "2"])) ∧
    parseOperators [("id", ⟨"id"⟩)] (.obj [("in", .str "1")])
      "in" (.str "1") "id" =
      .error (.invalidOperand "Value for 'in' operator must be an array") := by
  have h := in_notIn_behavior [("id", ⟨"id"⟩)] (.obj [("in", .arr [.str "1", .str "2"])])
    "id" ⟨"id"⟩ (.str "1") (by simp [lookupCol, lookupEntry])
  have h2 := in_notIn_behavior [("id", ⟨"id"⟩)] (.obj [("in", .str "1")])
    "id" ⟨"id"⟩ (.str "1") (by simp [lookupCol, lookupEntry])
  exact ⟨h.1 [.str "1", .str "2"], h2.2.1 rfl⟩

/-- C3: the code maps `hasEvery` to drizzle's `arrayContained` — a test that
the column's array is contained in the operand — not to an
array-contains-all-of test: at column value `["a","b"]` and operand `["a"]`
the contains-all-of test the claim describes holds while the emitted
predicate's PostgreSQL semantics does not. -/
theorem hasEvery_emits_arrayContained :
    parseWhere [("tags", ⟨"tags"⟩)]
      [("tags", .obj [("hasEvery", .arr [.str "a"])])] =
      .ok (some (.wrapE (.arrayContainedE (some ⟨"tags"⟩) (.arr [.str "a"])))) ∧
    arrayContainsAllOf [.str "a", .str "b"] [.str "a"] ∧
    ¬ pgArrayContained [.str "a", .str "b"] [.str "a"] := by
  refine ⟨?_, ?_, ?_⟩
  · rw [parseWhere_single]
    simp [parseEntry, parseOpsList, parseOperators, lookupCol, lookupEntry,
      andD, List.filterMap]
  · intro x hx
    simp at hx
    simp [hx]
  · intro h
    have := h (.str "b") (by simp)
    simp at this

/-- C4 counterexample: a `NOT` entry with a non-array object value does not
parse to a negated predicate — `parseWhere` dispatches on the inner keys of
the object and looks `NOT` up as a field, so `{NOT: {a: 1}}` throws the
invalid-field error. -/
theorem not_object_invalidField :
    parseWhere [("a", ⟨"a"⟩)] [("NOT", .obj [("a", .int 1)])] =
      .error (.invalidField "Invalid field: NOT") := by
  rw [parseWhere_single, parseEntry]
  simp [parseOpsList.eq_def, parseOperators.eq_def, lookupCol, lookupEntry]

/-- C4 amended: a `NOT` entry whose value is an array of sub-trees parses
each element recursively, negates it, and combines the negations with `and`;
a `NOT` entry whose value is a non-array object fails with the invalid-field
error for `NOT` (unless the model happens to declare a column named `NOT`). -/
theorem not_entry_behavior (model : Model) :
    (∀ (e₁ e₂ : List (String × JsVal)) (p₁ p₂ : Option SQLExpr),
      parseWhere model e₁ = .ok p₁ → parseWhere model e₂ = .ok p₂ →
      parseWhere model [("NOT", .arr [.obj e₁, .obj e₂])] =
        .ok (some (.wrapE (.andE [notD p₁, notD p₂])))) ∧
    (∀ (k : String) (v : JsVal) (rest : List (String × JsVal)),
      lookupCol model "NOT" = none →
      ¬(k = "AND" ∨ k = "OR" ∨ k = "NOT") → k ≠ "mode" →
      parseWhere model [("NOT", .obj ((k, v) :: rest))] =
        .error (.invalidField "Invalid field: NOT")) := by
  constructor
  · intro e₁ e₂ p₁ p₂ h₁ h₂
    rw [parseWhere_single]
    rw [parseEntry]
    rw [parseOperators.eq_def]
    simp only [parseLogicalList, parseLogicalOne, h₁, h₂]
    simp [andD, List.filterMap, notD]
  · intro k v rest hno hklog hkmode
    rw [parseWhere_single]
    rw [parseEntry]
    rw [parseOpsList.eq_def]
    dsimp only
    rw [if_neg hkmode]
    rw [parseOperators.eq_def]
    rw [if_neg hklog]
    rw [hno]
    simp

theorem not_entry_behavior_witness :
    parseWhere [("a", ⟨"a"⟩), ("b", ⟨"b"⟩)]
      [("NOT", .arr [.obj [("a", .int 1)], .obj [("b", .int 2)]])] =
      .ok (some (.wrapE (.andE
        [notD (some (.wrapE (.eqE (some ⟨"a"⟩) (.int 1)))),
         notD (some (.wrapE (.eqE (some ⟨"b"⟩) (.int 2))))]))) := by
  have h := (not_entry_behavior [("a", ⟨"a"⟩), ("b", ⟨"b"⟩)]).1
    [("a", .int 1)] [("b", .int 2)]
    (some (.wrapE (.eqE (some ⟨"a"⟩) (.int 1))))
    (some (.wrapE (.eqE (some ⟨"b"⟩) (.int 2))))
    (by rw [parseWhere_single]; simp [parseEntry, lookupCol, lookupEntry,
      andD, List.filterMap])
    (by rw [parseWhere_single]; simp [parseEntry, lookupCol, lookupEntry,
      andD, List.filterMap])
  exact h

/-- C5: with two triples whose secondary column resolves, when both boundary
values are supplied the boundary predicate is
`or(cmp(primary, pb), and(eq(primary, pb), cmp(secondary, sb)))` with `cmp`
strict greater-than for ascending order and strict less-than for descending,
and the final filter is `and(existingWhere, boundary)` when both exist, the
boundary alone without an existing filter; when either boundary value is
missing the existing filter is passed through unchanged (absent when there is
none). -/
theorem cursor_filter_composition (p s : CursorTriple) (kc : Column)
    (lim : JsVal) (w : Option SQLExpr) (hsc : s.column = some kc) :
    (isUndefinedVal p.cursor = false → isUndefinedVal s.cursor = false →
      (withCursorPagination (p, some s) lim w).whereC =
        some (match w with
          | some w0 => .andE [w0,
              .orE [cmpE (ascVal p.order) p.column p.cursor,
                .andE [.eqE p.column p.cursor,
                  cmpE (ascVal s.order) (some kc) s.cursor]]]
          | none => .orE [cmpE (ascVal p.order) p.column p.cursor,
              .andE [.eqE p.column p.cursor,
                cmpE (ascVal s.order) (some kc) s.cursor]])) ∧
    ((isUndefinedVal p.cursor = true ∨ isUndefinedVal s.cursor = true) →
      (withCursorPagination (p, some s) lim w).whereC = w) := by
  constructor
  · intro hp hs
    simp only [withCursorPagination, hsc, hp, hs, Option.isSome_some,
      Bool.and_self, Bool.not_false, Bool.and_true, if_true, cmpE]
    cases w <;> simp [andD, orD, List.filterMap, ite_apply]
  · intro hor
    have hcond : (Option.isSome (some kc) && Option.isSome (some s) &&
        !isUndefinedVal p.cursor && !isUndefinedVal s.cursor) = false := by
      rcases hor with h | h <;> simp [h]
    simp only [withCursorPagination, hsc]
    rcases hor with h | h <;>
      cases w <;>
        simp [h, andD, orD, List.filterMap]

theorem cursor_filter_composition_witness :
    (withCursorPagination
      (⟨some ⟨"createdAt"⟩, .str "asc", .date 5⟩,
       some ⟨some ⟨"id"⟩, .str "asc", .str "123"⟩)
      (.int 10) (some (.eqE (some ⟨"status"⟩) (.str "active")))).whereC =
      some (.andE [.eqE (some ⟨"status"⟩) (.str "active"),
        .orE [.gtE (some ⟨"createdAt"⟩) (.date 5),
          .andE [.eqE (some ⟨"createdAt"⟩) (.date 5),
            .gtE (some ⟨"id"⟩) (.str "123")]]]) := by
  have h := (cursor_filter_composition
    ⟨some ⟨"createdAt"⟩, .str "asc", .date 5⟩
    ⟨some ⟨"id"⟩, .str "asc", .str "123"⟩ ⟨"id"⟩ (.int 10)
    (some (.eqE (some ⟨"status"⟩) (.str "active"))) rfl).1 rfl rfl
  simpa [cmpE, ascVal] using h

/-- C9: `take` and `skip` pass through `if (args.take)` / `if (args.skip)`
truthiness checks, so a zero value is silently dropped: the translated output
has no `limit` / `offset` member. -/
theorem zero_take_skip_dropped (model : Model) (args : JsVal) (r : DrizzleResp)
    (h : transformQuery model args = .ok r) :
    (getField args "take" = .int 0 → r.limit = none) ∧
    (getField args "skip" = .int 0 → r.offset = none) := by
  obtain ⟨r6, h6, hc⟩ := transformQuery_decomp h
  obtain ⟨hcols, hlim, hoff⟩ := preCursor_fields h6
  obtain ⟨hc_cols, hc_off, hc_lim⟩ := stepCursor_preserve hc
  constructor
  · intro ht
    apply hc_lim
    rw [hlim, ht]
    simp [jsTruthy]
  · intro hs
    rw [hc_off, hoff, hs]
    simp [jsTruthy]

theorem zero_take_skip_dropped_witness :
    transformQuery [] (.obj [("take", .int 0), ("skip", .int 0)]) =
      .ok emptyResp ∧
    emptyResp.limit = none ∧ emptyResp.offset = none := by
  have ht : transformQuery ([] : Model)
      (.obj [("take", .int 0), ("skip", .int 0)]) = .ok emptyResp := by
    simp [transformQuery, preCursor, whereValE, includeValE, stepOrderBy,
      stepSkip, stepTake, stepSelect, stepCursor, getField, lookupEntry,
      jsTruthy, emptyResp, DrizzleResp.setWhere, DrizzleResp.setWith,
      DrizzleResp.setColumns, DrizzleResp.setLimit, DrizzleResp.setOffset,
      DrizzleResp.setOrderBy]
  have h := zero_take_skip_dropped [] (.obj [("take", .int 0), ("skip", .int 0)])
    emptyResp ht
  exact ⟨ht, h.1 (by simp [getField, lookupEntry]),
    h.2 (by simp [getField, lookupEntry])⟩

/-- C2 counterexample: a query description whose `select` member holds a
nested object translates successfully — the nested object is passed straight
through as the `columns` member — rather than failing with the
unsupported-shape error. -/
theorem nested_select_passes_through :
    transformQuery [] (.obj [("select", .obj [("type", .obj [("name", .bool true)])])]) =
      .ok (DrizzleResp.mk none none
        (some (.obj [("type", .obj [("name", .bool true)])])) none none none) := by
  simp [transformQuery, preCursor, whereValE, includeValE, stepOrderBy,
    stepSkip, stepTake, stepSelect, stepCursor, getField, lookupEntry,
    jsTruthy, emptyResp, DrizzleResp.setWhere, DrizzleResp.setWith,
    DrizzleResp.setColumns, DrizzleResp.setLimit, DrizzleResp.setOffset,
    DrizzleResp.setOrderBy]

/-- C2 amended: `transformQuery` passes a truthy `select` member through raw
as `columns` — nested objects included, because it never invokes
`parseSelect`; the standalone `parseSelect` helper is what rejects any entry
whose value has `typeof === 'object'` with the unsupported-shape error. -/
theorem select_passthrough_and_parseSelect_rejects (model : Model) :
    (∀ (args : JsVal) (r : DrizzleResp), transformQuery model args = .ok r →
      jsTruthy (getField args "select") = true →
      r.columns = some (getField args "select")) ∧
    (∀ l : List (String × JsVal), (∃ p ∈ l, typeofObject p.2 = true) →
      parseSelect model l =
        .error (.unsupportedShape "Nested select is not supported")) := by
  constructor
  · intro args r h hsel
    obtain ⟨r6, h6, hc⟩ := transformQuery_decomp h
    obtain ⟨hcols, _, _⟩ := preCursor_fields h6
    obtain ⟨hc_cols, _, _⟩ := stepCursor_preserve hc
    rw [hc_cols, hcols, if_pos hsel]
  · intro l hex
    induction l with
    | nil => simp at hex
    | cons hd tl ih =>
      obtain ⟨k, v⟩ := hd
      rw [parseSelect]
      by_cases hv : typeofObject v = true
      · rw [if_pos hv]
      · rw [if_neg hv]
        have hex' : ∃ p ∈ tl, typeofObject p.2 = true := by
          rcases hex with ⟨p, hp, hpt⟩
          rcases List.mem_cons.mp hp with rfl | hp'
          · exact absurd hpt hv
          · exact ⟨p, hp', hpt⟩
        rw [ih hex']
        split <;> rfl

theorem select_passthrough_witness :
    (DrizzleResp.mk none none
        (some (JsVal.obj [("type", .obj [("name", .bool true)])]))
        none none none).columns =
      some (.obj [("type", .obj [("name", .bool true)])]) ∧
    parseSelect [] [("type", .obj [("name", .bool true)])] =
      .error (.unsupportedShape "Nested select is not supported") := by
  have heval : transformQuery []
      (.obj [("select", .obj [("type", .obj [("name", .bool true)])])]) =
      .ok (DrizzleResp.mk none none
        (some (.obj [("type", .obj [("name", .bool true)])])) none none none) := by
    simp [transformQuery, preCursor, whereValE, includeValE, stepOrderBy,
      stepSkip, stepTake, stepSelect, stepCursor, getField, lookupEntry,
      jsTruthy, emptyResp, DrizzleResp.setWhere, DrizzleResp.setWith,
      DrizzleResp.setColumns, DrizzleResp.setLimit, DrizzleResp.setOffset,
      DrizzleResp.setOrderBy]
  refine ⟨?_, ?_⟩
  · exact (select_passthrough_and_parseSelect_rejects []).1
      (.obj [("select", .obj [("type", .obj [("name", .bool true)])])])
      _ heval (by simp [getField, lookupEntry, jsTruthy])
  · exact (select_passthrough_and_parseSelect_rejects []).2
      [("type", .obj [("name", .bool true)])]
      ⟨("type", .obj [("name", .bool true)]), by simp, by simp [typeofObject]⟩

/-- C10: a truthy cursor member with no entries — the empty object — makes
the destructuring `const [[key, value]] = Object.entries(args.cursor)` throw
a TypeError, which is none of the four documented error kinds; translation is
not total on this input. -/
theorem empty_cursor_type_error (model : Model) (args : JsVal)
    (resp : DrizzleResp) (hc : getField args "cursor" = .obj []) :
    stepCursor model args resp =
      .error (.runtimeError "TypeError: undefined is not iterable") ∧
    transformQuery model (.obj [("cursor", .obj [])]) =
      .error (.runtimeError "TypeError: undefined is not iterable") ∧
    isDocumentedError (.runtimeError "TypeError: undefined is not iterable") =
      false := by
  refine ⟨?_, ?_, rfl⟩
  · rw [stepCursor, hc]
    simp [jsTruthy, entriesOfE]
  · simp [transformQuery, preCursor, whereValE, includeValE, stepOrderBy,
      stepSkip, stepTake, stepSelect, stepCursor, getField, lookupEntry,
      jsTruthy, emptyResp, entriesOfE, DrizzleResp.setWhere,
      DrizzleResp.setWith, DrizzleResp.setColumns, DrizzleResp.setLimit,
      DrizzleResp.setOffset, DrizzleResp.setOrderBy]

theorem empty_cursor_type_error_witness :
    stepCursor [] (.obj [("cursor", .obj [])]) emptyResp =
      .error (.runtimeError "TypeError: undefined is not iterable") :=
  (empty_cursor_type_error [] (.obj [("cursor", .obj [])]) emptyResp
    (by simp [getField, lookupEntry])).1

/-- C1 counterexample: with cursor `{id: "123"}` the translated `orderBy`
places the `createdAt` sort term first and the caller-supplied cursor field's
(`id`) sort term second — not the other way around as the claim states. -/
theorem cursor_orderBy_counterexample :
    transformQuery [("id", ⟨"id"⟩), ("createdAt", ⟨"createdAt"⟩)]
      (.obj [("cursor", .obj [("id", .str "123")])]) =
      .ok (DrizzleResp.mk none none none none none
        (some [.ascT (some ⟨"createdAt"⟩), .ascT (some ⟨"id"⟩)])) ∧
    SortTerm.ascT (some (⟨"createdAt"⟩ : Column)) ≠
      SortTerm.ascT (some (⟨"id"⟩ : Column)) := by
  constructor
  · simp [transformQuery, preCursor, whereValE, includeValE, stepOrderBy,
      stepSkip, stepTake, stepSelect, stepCursor, getField, lookupEntry,
      jsTruthy, emptyResp, entriesOfE, withCursorPagination, lookupCol,
      optChainGet, nullish, ascVal, isUndefinedVal, collapseUndef,
      DrizzleResp.setWhere, DrizzleResp.setWith, DrizzleResp.setColumns,
      DrizzleResp.setLimit, DrizzleResp.setOffset, DrizzleResp.setOrderBy,
      DrizzleResp.limit, DrizzleResp.whereC, andD, orD, List.filterMap]
  · simp

/-- C1 amended: for every translated description carrying a cursor whose
first entry's key resolves to a column, the output `orderBy` has exactly two
sort terms: the `createdAt` term first and the caller-supplied cursor field's
term second. -/
theorem cursor_orderBy_createdAt_first (model : Model) (args : JsVal)
    (r : DrizzleResp) (key : String) (value : JsVal)
    (rest : List (String × JsVal)) (kc : Column)
    (h : transformQuery model args = .ok r)
    (hc : jsTruthy (getField args "cursor") = true)
    (he : entriesOfE (getField args "cursor") = .ok ((key, value) :: rest))
    (hk : lookupCol model key = some kc) :
    r.orderBy.map (List.map SortTerm.col) =
      some [lookupCol model "createdAt", some kc] := by
  obtain ⟨r6, _, hcur⟩ := transformQuery_decomp h
  exact stepCursor_orderBy hcur hc he hk

theorem cursor_orderBy_createdAt_first_witness :
    (DrizzleResp.mk none none none none none
      (some [SortTerm.ascT (some ⟨"createdAt"⟩),
        SortTerm.ascT (some ⟨"id"⟩)])).orderBy.map (List.map SortTerm.col) =
      some [lookupCol [("id", ⟨"id"⟩), ("createdAt", ⟨"createdAt"⟩)] "createdAt",
        some ⟨"id"⟩] := by
  have heval : transformQuery [("id", ⟨"id"⟩), ("createdAt", ⟨"createdAt"⟩)]
      (.obj [("cursor", .obj [("id", .str "123")])]) =
      .ok (DrizzleResp.mk none none none none none
        (some [.ascT (some ⟨"createdAt"⟩), .ascT (some ⟨"id"⟩)])) := by
    simp [transformQuery, preCursor, whereValE, includeValE, stepOrderBy,
      stepSkip, stepTake, stepSelect, stepCursor, getField, lookupEntry,
      jsTruthy, emptyResp, entriesOfE, withCursorPagination, lookupCol,
      optChainGet, nullish, ascVal, isUndefinedVal, collapseUndef,
      DrizzleResp.setWhere, DrizzleResp.setWith, DrizzleResp.setColumns,
      DrizzleResp.setLimit, DrizzleResp.setOffset, DrizzleResp.setOrderBy,
      DrizzleResp.limit, DrizzleResp.whereC, andD, orD, List.filterMap]
  exact cursor_orderBy_createdAt_first
    [("id", ⟨"id"⟩), ("createdAt", ⟨"createdAt"⟩)]
    (.obj [("cursor", .obj [("id", .str "123")])])
    _ "id" (.str "123") [] ⟨"id"⟩
    heval
    (by simp [getField, lookupEntry, jsTruthy])
    (by simp [getField, lookupEntry, entriesOfE])
    (by simp [lookupCol, lookupEntry])
